import Mathlib

/-!
Verification development for the `squashfs` Go package (a read-only SquashFS
archive decoder).  The definitions below are shallow embeddings of the Go
source: pure Go functions become Lean functions, Go loops become fueled or
structural recursions, byte slices become `List Nat` (each element a byte
value), Go strings become `List Char`, and fallible operations return
`Option`/`Except`.  Components of the repository whose source files are
absent (the compression option parsers, the data-stream and fragment
readers, the superblock record and flag decoding, the inode type constants)
are modelled from the specification document and are marked as such in
their doc comments.
-/

namespace Squashfs

/-! ## Superblock and archive-open model (reader.go `NewSquashfsReader`) -/

/-- Modelled from the spec: the 96-byte superblock record (its Go struct
declaration is not among the provided sources; §3 of the spec lists the
fields).  All fields are little-endian unsigned integers on disk and are
held here as `Nat`. -/
structure Superblock where
  magic : Nat
  inodeCount : Nat
  creationTime : Nat
  blockSize : Nat
  fragCount : Nat
  compressionType : Nat
  blockLog : Nat
  flags : Nat
  idCount : Nat
  rootInodeRef : Nat
  bytesUsed : Nat
  idTableStart : Nat
  xattrTableStart : Nat
  inodeTableStart : Nat
  dirTableStart : Nat
  fragTableStart : Nat
  exportTableStart : Nat
  deriving Repr, DecidableEq

/-- Compression type tags, from the on-disk format constants listed in §6 of
the spec (`gzip=1, lzma=2, lzo=3, xz=4, lz4=5, zstd=6`). -/
def GzipCompression : Nat := 1
def LzmaCompression : Nat := 2
def LzoCompression : Nat := 3
def XzCompression : Nat := 4
def Lz4Compression : Nat := 5
def ZstdCompression : Nat := 6

/-- Modelled from the spec: the `compressorOptions` superblock flag
(`superblock.GetFlags` is not among the provided sources).  The 16-bit
feature bitmap's compressor-options bit is `0x400`, i.e. bit 10. -/
def compressorOptions (s : Superblock) : Bool := s.flags.testBit 10

/-- Modelled from the spec: the parsed gzip compressor-options block
(8 bytes: compression level (4), window size (2), strategy bitmap (2));
`compression.NewGzipCompressorWithOptions` is not among the provided
sources. -/
structure GzipOptions where
  compressionLevel : Nat
  windowSize : Nat
  strategies : Nat
  deriving Repr, DecidableEq

/-- Modelled from the spec: `Gzip.HasCustomWindow` is set when the window
size differs from 15. -/
def hasCustomWindow (g : GzipOptions) : Bool := g.windowSize ≠ 15

/-- Modelled from the spec: `Gzip.HasStrategies` is set when the strategy
bitmap differs from the default (empty) bitmap. -/
def hasStrategies (g : GzipOptions) : Bool := g.strategies ≠ 0

/-- Modelled from the spec: the parsed XZ compressor-options block
(8 bytes: dictionary size (4), filter bitmap (4));
`compression.NewXzCompressorWithOptions` is not among the provided
sources. -/
structure XzOptions where
  dictionarySize : Nat
  filters : Nat
  deriving Repr, DecidableEq

/-- Modelled from the spec: `Xz.HasFilters` is set when any filter bit is
set. -/
def hasFilters (x : XzOptions) : Bool := x.filters ≠ 0

/-- An archive as seen by `NewSquashfsReader`: the decoded superblock, the
compressor-option payloads that follow it, and `restOk`, which abstracts
whether the remaining open phases (fragment-table read, id-table read, root
inode decode — implemented by `newMetadataReader` and `inode.ProcessInode`,
whose supporting sources are partly absent) succeed.  `restOk` is modelled
from the spec, which treats those phases as further fallible decoding
steps. -/
structure ArchiveModel where
  super : Superblock
  gzipOpts : GzipOptions
  xzOpts : XzOptions
  restOk : Bool
  deriving Repr, DecidableEq

/-- Error kinds surfaced by `NewSquashfsReader` (reader.go). -/
inductive OpenErr where
  | badMagic
  | corrupt
  | unsupportedCompression
  | unsupportedXzFilters
  | ioErr
  deriving Repr, DecidableEq

/-- Floor of the base-2 logarithm by repeated halving; `fuel` bounds the
iteration count and `n` halvings always suffice. -/
def log2Floor : Nat → Nat → Nat
  | 0, _ => 0
  | fuel + 1, n => if 2 ≤ n then log2Floor fuel (n / 2) + 1 else 0

/-- Model of `uint16(math.Log2(float64(n)))` (reader.go line 50) for
`n > 0`: `math.Log2` is exact on powers of two and accurate to well below
one ulp otherwise, so truncating the float to an integer yields the floor
of the base-2 logarithm for every positive 32-bit value; the result is
reduced mod `2^16` by the `uint16` conversion. -/
def uint16Log2 (n : Nat) : Nat := log2Floor n n % 65536

/-- Embedding of `NewSquashfsReader` (src/reader.go lines 41–182).  The
result is `.ok warn` when a Reader is returned, where `warn = true` means
the Reader was returned together with the non-fatal `ErrOptions`
("Possibly incompatible compressor options") error, as happens at lines
178–181; `.error e` means no Reader is returned.  The fragment-table,
id-table and root-inode phases (lines 116–177) are abstracted by
`a.restOk` (their supporting sources are absent); a failure there is an
`ioErr`, distinct from every other error kind. -/
def newSquashfsReader (a : ArchiveModel) : Except OpenErr Bool :=
  if a.super.magic ≠ 0x73717368 then .error .badMagic
  else if a.super.blockLog ≠ uint16Log2 a.super.blockSize then .error .corrupt
  else
    let sel : Except OpenErr Bool :=
      if compressorOptions a.super then
        if a.super.compressionType = GzipCompression then
          .ok (hasCustomWindow a.gzipOpts || hasStrategies a.gzipOpts)
        else if a.super.compressionType = XzCompression then
          if hasFilters a.xzOpts then .error .unsupportedXzFilters else .ok false
        else if a.super.compressionType = Lz4Compression then .ok false
        else if a.super.compressionType = ZstdCompression then .ok false
        else .error .unsupportedCompression
      else
        if a.super.compressionType = GzipCompression then .ok false
        else if a.super.compressionType = LzmaCompression then .ok false
        else if a.super.compressionType = XzCompression then .ok false
        else if a.super.compressionType = Lz4Compression then .ok false
        else if a.super.compressionType = ZstdCompression then .ok false
        else .error .unsupportedCompression
    match sel with
    | .error e => .error e
    | .ok warn => if a.restOk then .ok warn else .error .ioErr

/-! ## Inodes and `File.Size` (src/unnamed/part_001) -/

/-- Modelled from the spec: the inode kind tags (the Go constants file
declaring `inode.DirType` … `inode.ExtSocketType` is not among the provided
sources; §3/§4.4 of the spec list the 14 kinds, numbered 1–14 in the
on-disk format: the seven basic kinds followed by their extended
variants). -/
def DirType : Nat := 1
def FileType : Nat := 2
def SymType : Nat := 3
def BlockDevType : Nat := 4
def CharDevType : Nat := 5
def FifoType : Nat := 6
def SocketType : Nat := 7
def ExtDirType : Nat := 8
def ExtFileType : Nat := 9
def ExtSymType : Nat := 10
def ExtBlockDeviceType : Nat := 11
def ExtCharDeviceType : Nat := 12
def ExtFifoType : Nat := 13
def ExtSocketType : Nat := 14

/-- Modelled from the spec: the kind-specific inode payload
(`inode.Inode.Info`, an `interface{}` in Go; the concrete struct
declarations are not among the provided sources).  Only the fields the
embedded operations consult are carried: the regular-file payloads carry
the sizes and fragment/block data used by `File.Size` and
`newFileReader`. -/
inductive InodeInfo where
  | fileInfo (blockStart : Nat) (fragmented : Bool) (size : Nat)
  | extFileInfo (blockStart : Nat) (fragmented : Bool) (size : Nat)
  | dirInfo
  | otherInfo
  deriving Repr, DecidableEq

/-- An inode: the common-header kind tag plus the kind-specific payload
(`inode.Inode` from src/internal/inode/process.go). -/
structure Inode where
  typ : Nat
  info : InodeInfo
  deriving Repr, DecidableEq

/-- Embedding of `File.Size` (src/unnamed/part_001 lines 642–651): switch
on the inode type; `inode.ExtFileType` and `inode.FileType` return the
payload's `Size`, everything else returns 0.  A Go type assertion that
fails at runtime is modelled by `none`. -/
def fileSize (f : Inode) : Option Int :=
  if f.typ = ExtFileType then
    match f.info with
    | .extFileInfo _ _ size => some (Int.ofNat size)
    | _ => none
  else if f.typ = FileType then
    match f.info with
    | .fileInfo _ _ size => some (Int.ofNat size)
    | _ => none
  else
    some 0

/-! ## `File.WriteTo` (src/unnamed/part_001 lines 209–211)

The Go body is

  func (f *File) WriteTo(w io.Writer) (int64, error) \x7b
      return f.WriteTo(w)
  \x7d

i.e. the method calls itself with unchanged arguments.  The embedding makes
the recursion depth explicit with a fuel parameter: `none` means the call
has not produced a result within the given depth.  Since the self-call has
identical arguments, no finite depth produces a result. -/

/-- Embedding of `File.WriteTo`: `fuel` bounds the recursion depth; the
returned value, were the recursion ever to bottom out, would be the
`(int64, error)` pair, modelled as the list of bytes written. -/
def fileWriteTo : Nat → Option (List Nat)
  | 0 => none
  | fuel + 1 => fileWriteTo fuel

/-! ## The regular-file stream (`fileReader`, src/squashfsreader.go lines 764–853) -/

/-- The streaming state of `fileReader`.  `dataRem` is the not-yet-consumed
suffix of the data-stream bytes (the `dataReader` source is absent;
modelled from the spec §4.6 as a sequential reader over the file's
data-block payload) and `fragmentData` is the fetched fragment slice
(`getFragmentDataFromInode` is likewise absent; modelled from the spec §4.7
as the slice `[fragment_offset, fragment_offset + remainder)` of the
fragment block's decompressed payload). -/
structure FileReader where
  fragged : Bool
  fragOnly : Bool
  fileSize : Nat
  fragmentData : List Nat
  readCursor : Nat
  dataRem : List Nat
  deriving Repr, DecidableEq

/-- The regular-file fields of an inode that `newFileReader` consults. -/
structure FileInodeData where
  blockStart : Nat
  fragmented : Bool
  size : Nat
  deriving Repr, DecidableEq

/-- Embedding of `FileCore.newFileReader` (src/squashfsreader.go lines
781–810): `fragged` comes from the inode's `Fragmented` field, `fragOnly`
from the `BlockStart == 0` heuristic; the fragment slice is fetched exactly
when `fragged`, and the data reader is created exactly when not
`fragOnly`.  `dataBytes` and `fragSlice` stand for the byte sequences the
absent `dataReader` and fragment fetch would deliver. -/
def newFileReader (ino : FileInodeData) (dataBytes fragSlice : List Nat) : FileReader :=
  { fragged := ino.fragmented
    fragOnly := ino.blockStart == 0
    fileSize := ino.size
    fragmentData := if ino.fragmented then fragSlice else []
    readCursor := 0
    dataRem := if ino.blockStart == 0 then [] else dataBytes }

/-- The error component of a Go `io.Reader` call; only `io.EOF` is relevant
to the embedded code paths. -/
inductive ReadErr where
  | eof
  deriving Repr, DecidableEq

/-- Embedding of `fileReader.Read` (src/squashfsreader.go lines 812–837)
for a destination buffer of length `k`.  The fragment-only path reads from
`fragmentData[readCursor:]` through a `bytes.Buffer` (which yields `io.EOF`
exactly when it is empty and `k > 0`) and advances the cursor.  Otherwise
the data reader is consulted first; on its `io.EOF`, if the file is
fragmented, the code reads from a FRESH `bytes.NewBuffer(f.fragmentData)` —
no cursor is kept — into the rest of the destination. -/
def fileReaderRead (f : FileReader) (k : Nat) : List Nat × FileReader × Option ReadErr :=
  if f.fragOnly then
    let avail := f.fragmentData.drop f.readCursor
    if avail.isEmpty && decide (0 < k) then ([], f, some .eof)
    else
      let out := avail.take k
      (out, { f with readCursor := f.readCursor + out.length }, none)
  else
    let dataEof := f.dataRem.isEmpty && decide (0 < k)
    if dataEof then
      if f.fragged then
        if f.fragmentData.isEmpty && decide (0 < k) then ([], f, some .eof)
        else (f.fragmentData.take k, f, none)
      else ([], f, some .eof)
    else
      (f.dataRem.take k, { f with dataRem := f.dataRem.drop k }, none)

/-- Drives `fileReaderRead` with a fixed buffer length `k` until an error
is returned or `fuel` calls have been made, concatenating the bytes
produced; the second component is the error that ended the run (`none`
when the fuel ran out with the stream still open). -/
def fileReaderDrive : Nat → FileReader → Nat → List Nat × Option ReadErr
  | 0, _, _ => ([], none)
  | fuel + 1, f, k =>
    match fileReaderRead f k with
    | (bs, _, some e) => (bs, some e)
    | (bs, f', none) =>
      let rest := fileReaderDrive fuel f' k
      (bs ++ rest.1, rest.2)

/-- Embedding of `fileReader.WriteTo` (src/squashfsreader.go lines
839–853): fragment-only files emit the fragment slice, unfragmented files
emit the data stream, fragmented files emit the data stream followed by
the fragment slice.  The data reader's own `WriteTo` is modelled from the
spec (its source is absent) as emitting all remaining data bytes. -/
def fileReaderWriteTo (f : FileReader) : List Nat :=
  if f.fragOnly then f.fragmentData
  else if !f.fragged then f.dataRem
  else f.dataRem ++ f.fragmentData

/-! ## `File.ReadDir` (src/unnamed/part_001 lines 150–178) -/

/-- Result of a `File.ReadDir(i)` call: a Go runtime panic (from a slice
expression with inverted or out-of-range bounds), the not-a-directory
error, or a normal return carrying the produced entries, whether `io.EOF`
accompanied them, and the updated `dirsRead` field. -/
inductive ReadDirResult where
  | panicked
  | errNotDir
  | ok (ents : List Nat) (eofErr : Bool) (dirsRead' : Int)
  deriving Repr, DecidableEq

/-- The Go slice expression `xs[beg:end]` for integer bounds: defined when
`0 ≤ beg ≤ end ≤ len xs`, a runtime panic otherwise. -/
def goSlice (xs : List Nat) (beg e : Int) : Option (List Nat) :=
  if 0 ≤ beg ∧ beg ≤ e ∧ e ≤ (xs.length : Int) then
    some ((xs.drop beg.toNat).take (e - beg).toNat)
  else none

/-- Embedding of `File.ReadDir` (src/unnamed/part_001 lines 150–178).
Entries are abstracted to opaque handles (`Nat`).  For `i ≥ 0` the code
takes `beg, end = 0, len(entries)`; otherwise it takes
`beg, end = dirsRead, dirsRead + i` (with `i` negative), flagging `io.EOF`
and clamping only when `end > len(entries)`, and then evaluates
`entries[beg:end]`. -/
def fileReadDir (isDir : Bool) (entries : List Nat) (dirsRead : Int) (i : Int) :
    ReadDirResult :=
  if !isDir then .errNotDir
  else
    let len : Int := entries.length
    let be : Int × Int × Bool :=
      if i ≥ 0 then (0, len, false)
      else
        let e := dirsRead + i
        if e > len then (dirsRead, len, true) else (dirsRead, e, false)
    match goSlice entries be.1 be.2.1 with
    | none => .panicked
    | some out => .ok out be.2.2 (if be.2.2 then 0 else dirsRead)

/-! ## Directory decoding (src/internal/directory/directory.go) -/

/-- Byte access helper: the `i`-th byte of a buffer (0 when out of range;
every use is guarded by a length check mirroring `binary.Read`'s
behaviour). -/
def byteAt (bs : List Nat) (i : Nat) : Nat := bs.getD i 0

/-- Little-endian 16-bit value from the two bytes at offset `i`. -/
def u16At (bs : List Nat) (i : Nat) : Nat := byteAt bs i + 256 * byteAt bs (i + 1)

/-- Little-endian 32-bit value from the four bytes at offset `i`. -/
def u32At (bs : List Nat) (i : Nat) : Nat :=
  byteAt bs i + 256 * byteAt bs (i + 1) + 65536 * byteAt bs (i + 2) +
    16777216 * byteAt bs (i + 3)

/-- The error outcomes of `binary.Read` on a `bytes.Buffer`: `io.EOF` when
no byte could be read, `io.ErrUnexpectedEOF` when only part of the value
could be read. -/
inductive DirErr where
  | eof
  | unexpectedEOF
  deriving Repr, DecidableEq

/-- `directory.Header` (src/internal/directory/directory.go lines 10–14):
`count` holds the `Count` field (the raw on-disk value until the caller
increments it), `inodeOffset` the `InodeOffset` field, `inodeNumber` the
`InodeNumber` field. -/
structure DirHeader where
  count : Nat
  inodeOffset : Nat
  inodeNumber : Nat
  deriving Repr, DecidableEq

/-- `directory.Entry` (lines 25–30).  `name` is the raw byte sequence (Go
converts it to a string with `string(tmp)`, byte for byte). -/
structure DirEntry where
  name : List Nat
  typ : Nat
  inodeBlockOffset : Nat
  inodeOffset : Nat
  deriving Repr, DecidableEq

/-- `binary.Read` of a 12-byte `directory.Header` from the buffer:
`io.EOF` on an empty buffer, `io.ErrUnexpectedEOF` on 1–11 bytes. -/
def readDirHeader (buf : List Nat) : Except DirErr (DirHeader × List Nat) :=
  if buf.length = 0 then .error .eof
  else if buf.length < 12 then .error .unexpectedEOF
  else .ok ({ count := u32At buf 0
              inodeOffset := u32At buf 4
              inodeNumber := u32At buf 8 }, buf.drop 12)

/-- Embedding of `directory.NewEntry` (lines 33–49): read the 8-byte
`EntryRaw` (`Offset` u16, `InodeOffset` i16, `Type` u16, `NameSize` u16),
then exactly `NameSize + 1` name bytes; the name is kept verbatim and the
entry's `InodeBlockOffset` is the record's `Offset` field.  The returned
entry's `inodeOffset` is zero — the caller assigns it from the current
header. -/
def newEntry (buf : List Nat) : Except DirErr (DirEntry × List Nat) :=
  if buf.length = 0 then .error .eof
  else if buf.length < 8 then .error .unexpectedEOF
  else
    let nameSize := u16At buf 6
    let rest := buf.drop 8
    if rest.length = 0 then .error .eof
    else if rest.length < nameSize + 1 then .error .unexpectedEOF
    else .ok ({ name := rest.take (nameSize + 1)
                typ := u16At buf 4
                inodeBlockOffset := u16At buf 0
                inodeOffset := 0 }, rest.drop (nameSize + 1))

/-- Embedding of the inner entry loop of `directory.NewDirectory` (lines
66–80): `for i := 0; i < hdr.Count; i++`, re-reading a fresh header (raw
count, no increment) whenever `i != 0 && i%256 == 0`, then parsing one
entry and appending it with `InodeOffset` set from the current header.
`fuel` bounds the number of iterations; running out of fuel is reported as
`unexpectedEOF` (unreachable when `fuel` exceeds the byte count, since each
iteration consumes at least 9 bytes). -/
def entLoop : Nat → DirHeader → Nat → List Nat → List DirEntry →
    Except DirErr (List DirEntry × List Nat)
  | 0, _, _, _, _ => .error .unexpectedEOF
  | fuel + 1, hdr, i, buf, acc =>
    if i < hdr.count then
      if i ≠ 0 ∧ i % 256 = 0 then
        match readDirHeader buf with
        | .error e => .error e
        | .ok (hdr', buf') =>
          match newEntry buf' with
          | .error e => .error e
          | .ok (ent, buf'') =>
            entLoop fuel hdr' (i + 1) buf''
              (acc ++ [{ ent with inodeOffset := hdr'.inodeOffset }])
      else
        match newEntry buf with
        | .error e => .error e
        | .ok (ent, buf') =>
          entLoop fuel hdr (i + 1) buf'
            (acc ++ [{ ent with inodeOffset := hdr.inodeOffset }])
    else .ok (acc, buf)

/-- Embedding of the outer header loop of `directory.NewDirectory` (lines
56–81): read a header — `io.ErrUnexpectedEOF` breaks the loop cleanly,
every other error (including a clean `io.EOF`) is returned as a failure —
then increment its count (32-bit wraparound, as Go's `hdr.Count++`) and
run the entry loop. -/
def dirLoop : Nat → List Nat → List DirEntry → Except DirErr (List DirEntry)
  | 0, _, _ => .error .unexpectedEOF
  | fuel + 1, buf, acc =>
    match readDirHeader buf with
    | .error .unexpectedEOF => .ok acc
    | .error .eof => .error .eof
    | .ok (hdr, buf') =>
      match entLoop fuel { hdr with count := (hdr.count + 1) % 4294967296 } 0 buf' acc with
      | .error e => .error e
      | .ok (acc', buf'') => dirLoop fuel buf'' acc'

/-- Embedding of `directory.NewDirectory` (lines 52–83): `size` bytes are
read into a zero-initialised buffer (`make([]byte, size)` followed by a
single `base.Read(tmp)` whose short-read is ignored, so missing bytes stay
zero), then the header/entry loops run over that buffer. -/
def newDirectory (base : List Nat) (size : Nat) : Except DirErr (List DirEntry) :=
  let tmp := base.take size ++ List.replicate (size - min size base.length) 0
  dirLoop (size + 1) tmp []

/-! ## Path handling and `FileFS.Open` (src/unnamed/part_003 lines 16–103)

Go strings are modelled as `List Char`.  The Go standard library helpers
the source calls (`strings.Split`, `path.Clean`, `fs.ValidPath`,
`path.Match`) are not part of this repository; they are modelled from
their documented behaviour below. -/

/-- Modelled from the spec: Go `strings.Split(s, "/")`. -/
def splitSlash : List Char → List (List Char)
  | [] => [[]]
  | c :: rest =>
    if c = '/' then [] :: splitSlash rest
    else
      match splitSlash rest with
      | [] => [[c]]
      | e :: es => (c :: e) :: es

/-- Modelled from the spec: Go `strings.Join(parts, "/")`. -/
def joinSlash : List (List Char) → List Char
  | [] => []
  | [x] => x
  | x :: xs => x ++ '/' :: joinSlash xs

/-- Modelled from the spec: Go `io/fs.ValidPath` — a name is valid when it
is `"."`, or it is non-empty and slash-separated into elements none of
which is empty, `"."` or `".."`. -/
def validPath (name : List Char) : Bool :=
  name = ['.'] ||
    (name ≠ [] &&
      (splitSlash name).all fun e => e ≠ [] && e ≠ ['.'] && e ≠ ['.', '.'])

/-- Modelled from the spec: Go `path.Clean` — purely lexical
simplification: drop empty and `"."` elements, resolve `".."` against a
preceding element (or drop it when the path is rooted), return `"."` for
an empty relative result and `"/"`-prefixed paths for rooted ones. -/
def pathClean (p : List Char) : List Char :=
  if p = [] then ['.']
  else
    let rooted := p.headD ' ' = '/'
    let stack := (splitSlash p).foldl
      (fun st e =>
        if e = [] ∨ e = ['.'] then st
        else if e = ['.', '.'] then
          match st with
          | [] => if rooted then [] else [['.', '.']]
          | top :: rest => if top = ['.', '.'] then e :: st else rest
        else e :: st) []
    let body := joinSlash stack.reverse
    if rooted then '/' :: body
    else if body = [] then ['.'] else body

/-- A token of a compiled `path.Match` pattern: a literal character, `?`,
`*`, or a (possibly negated) character class given by its closed
ranges. -/
inductive PatTok where
  | lit (c : Char)
  | anyChar
  | anySeq
  | cls (negated : Bool) (ranges : List (Char × Char))
  deriving Repr, DecidableEq

/-- Modelled from the spec: `getEsc` of Go `path.Match` — read one
character of a class range, rejecting `-`, `]`, a bare trailing `\`, and a
class that would end right after the character. -/
def getEsc : List Char → Option (Char × List Char)
  | [] => none
  | c :: rest =>
    if c = '-' ∨ c = ']' then none
    else if c = '\\' then
      match rest with
      | [] => none
      | d :: r => if r = [] then none else some (d, r)
    else if rest = [] then none
    else some (c, rest)

/-- Modelled from the spec: the range list of a `path.Match` character
class — `lo` or `lo-hi` items, at least one, up to the closing `]`. -/
def parseRanges : Nat → List Char → List (Char × Char) →
    Option (List (Char × Char) × List Char)
  | 0, _, _ => none
  | fuel + 1, p, acc =>
    match p with
    | ']' :: rest =>
      if acc ≠ [] then some (acc.reverse, rest)
      else
        match getEsc p with
        | none => none
        | some _ => none
    | _ =>
      match getEsc p with
      | none => none
      | some (lo, p₁) =>
        match p₁ with
        | '-' :: p₂ =>
          match getEsc p₂ with
          | none => none
          | some (hi, p₃) => parseRanges fuel p₃ ((lo, hi) :: acc)
        | _ => parseRanges fuel p₁ ((lo, lo) :: acc)

/-- Modelled from the spec: compile a `path.Match` pattern into tokens;
`none` signals `ErrBadPattern` (trailing `\`, malformed class). -/
def parseToks : Nat → List Char → List PatTok → Option (List PatTok)
  | _, [], acc => some acc.reverse
  | 0, _ :: _, _ => none
  | fuel + 1, c :: rest, acc =>
    if c = '*' then parseToks fuel rest (.anySeq :: acc)
    else if c = '?' then parseToks fuel rest (.anyChar :: acc)
    else if c = '\\' then
      match rest with
      | [] => none
      | d :: r => parseToks fuel r (.lit d :: acc)
    else if c = '[' then
      let (neg, p₁) :=
        match rest with
        | '^' :: r => (true, r)
        | _ => (false, rest)
      match parseRanges (p₁.length + 1) p₁ [] with
      | none => none
      | some (rs, p₂) => parseToks fuel p₂ (.cls neg rs :: acc)
    else parseToks fuel rest (.lit c :: acc)

/-- Whether a character is inside one of the class ranges, with the
class's negation applied. -/
def classMatches (negated : Bool) (ranges : List (Char × Char)) (c : Char) : Bool :=
  let hit := ranges.any fun r => r.1 ≤ c ∧ c ≤ r.2
  if negated then !hit else hit

/-- The suffixes of a name reachable by letting `*` consume zero or more
non-`/` characters. -/
def nonSlashSuffixes : List Char → List (List Char)
  | [] => [[]]
  | c :: cs => (c :: cs) :: (if c = '/' then [] else nonSlashSuffixes cs)

/-- Modelled from the spec: matching of a compiled pattern against a name,
per the documented `path.Match` semantics — `*` matches any sequence of
non-`/` characters, `?` any single non-`/` character, a class one
character from its ranges, and the pattern must cover all of the name. -/
def matchToks : List PatTok → List Char → Bool
  | [], n => n.isEmpty
  | .anySeq :: ts, n => (nonSlashSuffixes n).any fun s => matchToks ts s
  | .anyChar :: ts, n =>
    match n with
    | c :: n' => decide (c ≠ '/') && matchToks ts n'
    | [] => false
  | .lit c :: ts, n =>
    match n with
    | d :: n' => c = d && matchToks ts n'
    | [] => false
  | .cls neg rs :: ts, n =>
    match n with
    | c :: n' => classMatches neg rs c && matchToks ts n'
    | [] => false

/-- Modelled from the spec: Go `path.Match(pattern, name)`; `none` is
`ErrBadPattern` (reported for a malformed pattern), `some b` the match
verdict. -/
def goMatch (pat n : List Char) : Option Bool :=
  match parseToks (pat.length + 1) pat [] with
  | none => none
  | some toks => some (matchToks toks n)

/-- The directory tree a `FileFS` exposes: the `File` values reachable
through `ReadDir`, reduced to the fields `FileFS.Open` consults — the name
and, for directories, the children. -/
inductive FsNode where
  | file (name : List Char)
  | dir (name : List Char) (children : List FsNode)
  deriving Repr

/-- The name of a node, as `DirEntry.Name()` returns it. -/
def fsName : FsNode → List Char
  | .file n => n
  | .dir n _ => n

/-- Error kinds of `FileFS.Open`: `fs.ErrInvalid`, `fs.ErrNotExist`, the
"ReadDir called on a non-directory" error, and `path.ErrBadPattern`. -/
inductive PathErr where
  | invalid
  | notExist
  | notDir
  | badPattern
  deriving Repr, DecidableEq

/-- Embedding of the entry loop of `FileFS.Open` (src/unnamed/part_003
lines 50–97): try `path.Match(split[0], entry.Name())` on each child in
order; on a match, return the child when it was the last component, recurse
into it (via `AsFS().Open` on the joined remainder) when it is a directory,
and fail with `fs.ErrNotExist` otherwise; a bad pattern fails the call; a
loop that finds no match falls through to `fs.ErrNotExist`. -/
def openLoop (recurse : FsNode → List Char → Option (Except PathErr FsNode)) :
    List FsNode → List Char → List (List Char) → Option (Except PathErr FsNode)
  | [], _, _ => some (.error .notExist)
  | d :: ds, first, restComps =>
    match goMatch first (fsName d) with
    | none => some (.error .badPattern)
    | some false => openLoop recurse ds first restComps
    | some true =>
      if restComps = [] then some (.ok d)
      else
        match d with
        | .dir _ _ => recurse d (joinSlash restComps)
        | .file _ => some (.error .notExist)

/-- Embedding of `FileFS.Open` (src/unnamed/part_003 lines 16–103).  The
fuel bounds the recursion depth (one unit per path level); `none` means
the fuel ran out.  An empty name returns the receiver's own `File`; an
invalid name (per `fs.ValidPath`) is rejected with `fs.ErrInvalid`; a
leading `/` is trimmed and the name cleaned; `""`/`"."` return the
receiver; a name beginning `"../"` is rejected; otherwise the name is
split on `/` and the children (from `ReadDir(0)`, which fails on a
non-directory) are scanned by `openLoop`. -/
def fsOpen : Nat → FsNode → List Char → Option (Except PathErr FsNode)
  | 0, _, _ => none
  | fuel + 1, node, name0 =>
    if name0 = [] then some (.ok node)
    else if !validPath name0 then some (.error .invalid)
    else
      let name1 := if name0.headD ' ' = '/' then name0.tail else name0
      let name2 := pathClean name1
      if name2 = [] ∨ name2 = ['.'] then some (.ok node)
      else
        match name2 with
        | '.' :: '.' :: '/' :: _ => some (.error .invalid)
        | _ =>
          match splitSlash name2 with
          | [] => some (.error .notExist)
          | first :: restComps =>
            match node with
            | .file _ => some (.error .notDir)
            | .dir _ children => openLoop (fsOpen fuel) children first restComps

/-! ## Concrete fixtures used by the theorems -/

/-- A fragmented regular file of size 5 over block size 4: one full data
block `[97, 98, 99, 100]` plus a one-byte fragment tail `[101]`
(`BlockStart = 4096`, so not fragment-only). -/
def fraggedFR : FileReader :=
  newFileReader { blockStart := 4096, fragmented := true, size := 5 }
    [97, 98, 99, 100] [101]

/-- The streaming state `fraggedFR` reaches once its data stream is
exhausted; `fileReaderRead` then leaves the state unchanged forever. -/
def fraggedFRDrained : FileReader :=
  { fragged := true, fragOnly := false, fileSize := 5,
    fragmentData := [101], readCursor := 0, dataRem := [] }

lemma fraggedFRDrained_step :
    fileReaderRead fraggedFRDrained 5 = ([101], fraggedFRDrained, none) := by
  decide

lemma fraggedFRDrained_never_eof (fuel : Nat) :
    (fileReaderDrive fuel fraggedFRDrained 5).2 = none := by
  induction fuel with
  | zero => rfl
  | succ n ih =>
    show (fileReaderDrive (n + 1) fraggedFRDrained 5).2 = none
    rw [fileReaderDrive, fraggedFRDrained_step]
    simpa using ih

/-- A superblock with the given block size, block log, compression tag and
flag bitmap; the fields `NewSquashfsReader`'s early phases do not consult
are zero. -/
def mkSuper (blockSize blockLog compressionType flags : Nat) : Superblock :=
  { magic := 0x73717368, inodeCount := 0, creationTime := 0,
    blockSize := blockSize, fragCount := 0,
    compressionType := compressionType, blockLog := blockLog,
    flags := flags, idCount := 0, rootInodeRef := 0, bytesUsed := 0,
    idTableStart := 0, xattrTableStart := 0, inodeTableStart := 0,
    dirTableStart := 0, fragTableStart := 0, exportTableStart := 0 }

/-- Neutral gzip options (window 15, empty strategy bitmap). -/
def defaultGzipOpts : GzipOptions :=
  { compressionLevel := 9, windowSize := 15, strategies := 0 }

/-- Neutral XZ options (no filter bits). -/
def defaultXzOpts : XzOptions := { dictionarySize := 8192, filters := 0 }

/-- A gzip archive whose options block has window size 14 (≠ 15). -/
def gzWarnArchive : ArchiveModel :=
  { super := mkSuper 4096 12 GzipCompression 1024
    gzipOpts := { compressionLevel := 9, windowSize := 14, strategies := 0 }
    xzOpts := defaultXzOpts
    restOk := true }

/-- An XZ archive whose options block has a filter bit set. -/
def xzFiltersArchive : ArchiveModel :=
  { super := mkSuper 4096 12 XzCompression 1024
    gzipOpts := defaultGzipOpts
    xzOpts := { dictionarySize := 8192, filters := 1 }
    restOk := true }

/-- An LZMA archive with the compressor-options flag set. -/
def lzmaOptsArchive : ArchiveModel :=
  { super := mkSuper 4096 12 LzmaCompression 1024
    gzipOpts := defaultGzipOpts
    xzOpts := defaultXzOpts
    restOk := true }

/-- An LZO archive without compressor options. -/
def lzoArchive : ArchiveModel :=
  { super := mkSuper 4096 12 LzoCompression 0
    gzipOpts := defaultGzipOpts
    xzOpts := defaultXzOpts
    restOk := true }

/-- A gzip archive with a 2048-byte block size (below the 4 KiB format
minimum) and the matching block log 11. -/
def smallBlockArchive : ArchiveModel :=
  { super := mkSuper 2048 11 GzipCompression 0
    gzipOpts := defaultGzipOpts
    xzOpts := defaultXzOpts
    restOk := true }

/-- The spec's E2 scenario: block size 131072 with block log 16. -/
def e2Archive : ArchiveModel :=
  { super := mkSuper 131072 16 GzipCompression 0
    gzipOpts := defaultGzipOpts
    xzOpts := defaultXzOpts
    restOk := true }

/-! ## Claims -/

/-- C1: the claim asserts that for every regular file, `WriteTo` terminates
and produces the byte sequence obtained by concatenating all `Read` calls
to end-of-stream.  In the code, `File.WriteTo` (src/unnamed/part_001 lines
209–211) returns `f.WriteTo(w)` — an unconditional self-call — so it never
terminates: the fueled embedding yields no result at any recursion depth.
(For contrast, the second conjunct shows the lower-level
`fileReader.WriteTo` on the block-plus-fragment fixture does emit the data
block followed by the fragment tail once.) -/
theorem c1_writeTo_diverges :
    (∀ fuel : Nat, fileWriteTo fuel = none) ∧
      fileReaderWriteTo fraggedFR = [97, 98, 99, 100, 101] := by
  refine ⟨fun fuel => ?_, by decide⟩
  induction fuel with
  | zero => rfl
  | succ n ih => simpa [fileWriteTo] using ih

/-- C2: the claim asserts that `File.Size` equals the number of bytes
produced by reading to end-of-stream.  On the block-plus-fragment fixture
(`Size = 5`), `fileReader.Read` (src/squashfsreader.go lines 812–837)
delivers the data block, then — because it re-reads the fragment from a
fresh `bytes.Buffer` on every call with no cursor — serves the fragment
again on each subsequent call and never returns `io.EOF`: three reads
already produce 6 bytes, and no amount of reading reaches end-of-stream,
so no finite read-to-EOF total exists, let alone one equal to `Size`. -/
theorem c2_read_never_reaches_eof :
    fraggedFR.fileSize = 5 ∧
      fileReaderDrive 3 fraggedFR 5 = ([97, 98, 99, 100, 101, 101], none) ∧
      ∀ fuel : Nat, (fileReaderDrive fuel fraggedFR 5).2 = none := by
  refine ⟨rfl, by decide, fun fuel => ?_⟩
  match fuel with
  | 0 => rfl
  | n + 1 =>
    show (fileReaderDrive (n + 1) fraggedFR 5).2 = none
    have hstep : fileReaderRead fraggedFR 5 =
        ([97, 98, 99, 100], fraggedFRDrained, none) := by decide
    rw [fileReaderDrive, hstep]
    simpa using fraggedFRDrained_never_eof n

/-- C5: with the compressor-options flag set, a gzip archive whose options
block has a window size other than 15 or a non-default strategy bitmap
opens successfully and the Reader is returned together with the non-fatal
`ErrOptions` (modelled as `.ok true`), provided the remaining open phases
succeed; an XZ archive whose options block has any filter bit set fails
with the unsupported-XZ-filters error and no Reader (reader.go lines
60–98 and 178–181). -/
theorem c5_compressor_options (a : ArchiveModel)
    (hm : a.super.magic = 0x73717368)
    (hl : a.super.blockLog = uint16Log2 a.super.blockSize)
    (hf : compressorOptions a.super = true) :
    (a.super.compressionType = GzipCompression →
      (hasCustomWindow a.gzipOpts || hasStrategies a.gzipOpts) = true →
      a.restOk = true →
      newSquashfsReader a = .ok true) ∧
    (a.super.compressionType = XzCompression → hasFilters a.xzOpts = true →
      newSquashfsReader a = .error .unsupportedXzFilters) := by
  constructor
  · intro ht hw hr
    simp [newSquashfsReader, hm, hl, hf, ht, hw, hr]
  · intro ht hx
    simp [newSquashfsReader, hm, hl, hf, ht, hx, GzipCompression, XzCompression]

/-- C5 witness: a concrete custom-window gzip archive yields a Reader plus
the warning; a concrete filtered-XZ archive yields the fatal error. -/
theorem c5_compressor_options_witness :
    newSquashfsReader gzWarnArchive = .ok true ∧
      newSquashfsReader xzFiltersArchive = .error .unsupportedXzFilters :=
  ⟨(c5_compressor_options gzWarnArchive rfl (by decide) (by decide)).1
      (by decide) (by decide) rfl,
   (c5_compressor_options xzFiltersArchive rfl (by decide) (by decide)).2
      (by decide) (by decide)⟩

/-- C6 counterexample: the claim asserts every tag in
`{gzip, lzma, xz, lz4, zstd}` selects a decompressor whether or not the
compressor-options flag is set; but the options branch of
`NewSquashfsReader` (reader.go lines 61–98) has no LZMA case, so an LZMA
archive with the flag set falls into `default` and gets
`errIncompatibleCompression`. -/
theorem c6_counterexample :
    lzmaOptsArchive.super.compressionType = LzmaCompression ∧
      compressorOptions lzmaOptsArchive.super = true ∧
      newSquashfsReader lzmaOptsArchive = .error .unsupportedCompression :=
  ⟨rfl, by decide, rfl⟩

/-- C6 (amended): for an archive passing the superblock checks, without
the compressor-options flag the unsupported-compression error occurs
exactly for tags outside `{gzip=1, lzma=2, xz=4, lz4=5, zstd=6}`; with the
flag it occurs exactly for tags outside `{gzip, xz, lz4, zstd}` — LZMA
included, since the options branch has no LZMA case. -/
theorem c6_unsupported_compression (a : ArchiveModel)
    (hm : a.super.magic = 0x73717368)
    (hl : a.super.blockLog = uint16Log2 a.super.blockSize) :
    (compressorOptions a.super = false →
      (newSquashfsReader a = .error .unsupportedCompression ↔
        ¬(a.super.compressionType = GzipCompression ∨
          a.super.compressionType = LzmaCompression ∨
          a.super.compressionType = XzCompression ∨
          a.super.compressionType = Lz4Compression ∨
          a.super.compressionType = ZstdCompression))) ∧
    (compressorOptions a.super = true →
      (newSquashfsReader a = .error .unsupportedCompression ↔
        ¬(a.super.compressionType = GzipCompression ∨
          a.super.compressionType = XzCompression ∨
          a.super.compressionType = Lz4Compression ∨
          a.super.compressionType = ZstdCompression))) := by
  constructor <;> intro hopt <;>
    simp only [newSquashfsReader, hm, hl, hopt, ne_eq, not_true_eq_false,
      if_false, Bool.false_eq_true, Bool.true_eq_false] <;>
    split_ifs with h1 h2 h3 h4 h5 <;>
    simp_all

/-- C6 witness: an LZO archive (tag 3, no options flag) is rejected with
the unsupported-compression error. -/
theorem c6_unsupported_compression_witness :
    newSquashfsReader lzoArchive = .error .unsupportedCompression :=
  ((c6_unsupported_compression lzoArchive rfl (by decide)).1 (by decide)).mpr
    (by decide)

/-- C7 counterexample: the claim asserts open fails whenever the block
size lies outside `[4 KiB, 1 MiB]`; but `NewSquashfsReader` (reader.go
lines 47–52) performs no range check, so an archive with block size 2048
and the matching block log 11 opens successfully. -/
theorem c7_counterexample :
    smallBlockArchive.super.blockSize = 2048 ∧
      smallBlockArchive.super.blockSize < 4096 ∧
      newSquashfsReader smallBlockArchive = .ok false :=
  ⟨rfl, by decide, rfl⟩

/-- C7 (amended): for every archive with a correct magic word (and a
positive block size, where the float-log model is exact), open returns the
corrupt error exactly when the superblock's block log differs from the
truncated base-2 logarithm of its block size; no block-size range check is
performed. -/
theorem c7_corrupt_iff_blocklog (a : ArchiveModel)
    (hm : a.super.magic = 0x73717368) (hpos : 0 < a.super.blockSize) :
    newSquashfsReader a = .error .corrupt ↔
      a.super.blockLog ≠ uint16Log2 a.super.blockSize := by
  by_cases h : a.super.blockLog = uint16Log2 a.super.blockSize
  · simp only [newSquashfsReader, hm, h, ne_eq, not_true_eq_false, if_false]
    split_ifs <;> simp_all
  · simp [newSquashfsReader, hm, h]

/-- C7 witness: the spec's E2 archive (block size 131072, block log 16)
yields the corrupt error. -/
theorem c7_corrupt_iff_blocklog_witness :
    newSquashfsReader e2Archive = .error .corrupt :=
  (c7_corrupt_iff_blocklog e2Archive rfl (by decide)).mpr (by decide)

/-- In the fragment-only state, each read takes the next `k` bytes of the
fragment slice and the drive terminates with `io.EOF` after the slice is
exhausted, for any sufficient fuel. -/
lemma fragOnly_drive (frag : List Nat) (s k : Nat) (hk : 0 < k) :
    ∀ fuel r, (frag.length - r + k - 1) / k + 1 ≤ fuel →
      fileReaderDrive fuel ⟨true, true, s, frag, r, []⟩ k =
        (frag.drop r, some .eof) := by
  intro fuel
  induction fuel with
  | zero => intro r hr; exact absurd hr (Nat.not_succ_le_zero _)
  | succ n ih =>
    intro r hr
    by_cases hempty : (frag.drop r).isEmpty
    · have h1 : fileReaderRead ⟨true, true, s, frag, r, []⟩ k =
          ([], ⟨true, true, s, frag, r, []⟩, some .eof) := by
        simp [fileReaderRead, hempty, hk]
      simp only [fileReaderDrive]
      rw [h1]
      rw [List.isEmpty_iff] at hempty
      rw [hempty]
    · have h1 : fileReaderRead ⟨true, true, s, frag, r, []⟩ k =
          ((frag.drop r).take k,
            ⟨true, true, s, frag, r + ((frag.drop r).take k).length, []⟩,
            none) := by
        simp [fileReaderRead, hempty]
      have hlen : r < frag.length := by
        by_contra hc
        push_neg at hc
        exact hempty (by simp [List.isEmpty_iff, List.drop_eq_nil_of_le hc])
      have hbound : (frag.length - (r + ((frag.drop r).take k).length) + k - 1) / k
          + 1 ≤ n := by
        have ht : ((frag.drop r).take k).length = min k (frag.length - r) := by
          simp [List.length_take, List.length_drop]
        rw [ht]
        rcases le_total k (frag.length - r) with hkm | hkm
        · rw [min_eq_left hkm]
          have hm1 : frag.length - (r + k) + k - 1 = frag.length - r - 1 := by
            omega
          rw [hm1]
          have hsplit : (frag.length - r + k - 1) / k =
              (frag.length - r - 1) / k + 1 := by
            have : frag.length - r + k - 1 = (frag.length - r - 1) + k := by omega
            rw [this, Nat.add_div_right _ hk]
          omega
        · rw [min_eq_right hkm]
          have hz : frag.length - (r + (frag.length - r)) + k - 1 = k - 1 := by
            omega
          rw [hz, Nat.div_eq_of_lt (by omega)]
          have hm : 1 ≤ frag.length - r := by omega
          have : k / k ≤ (frag.length - r + k - 1) / k :=
            Nat.div_le_div_right (by omega)
          rw [Nat.div_self hk] at this
          omega
      have ih' := ih (r + ((frag.drop r).take k).length) hbound
      simp only [fileReaderDrive]
      rw [h1]
      simp only [ih']
      have hdrop : frag.drop (r + ((frag.drop r).take k).length) =
          (frag.drop r).drop ((frag.drop r).take k).length := by
        rw [List.drop_drop, Nat.add_comm]
      have hmin : (frag.drop r).drop ((frag.drop r).take k).length =
          (frag.drop r).drop k := by
        rw [List.length_take]
        rcases le_total k (frag.drop r).length with h | h
        · rw [min_eq_left h]
        · rw [min_eq_right h, List.drop_eq_nil_of_le h,
            List.drop_eq_nil_of_le le_rfl]
      rw [hdrop, hmin, List.take_append_drop]

/-- C3: a fragment-only regular file (`BlockStart == 0`, fragment present)
reads back exactly its fragment slice and then end-of-stream: for every
fragment slice and positive buffer size, driving `fileReader.Read` with
sufficient fuel yields the slice followed by `io.EOF`
(src/squashfsreader.go lines 781–810 and 812–837; the fragment fetch is
modelled from the spec as the slice
`[fragment_offset, fragment_offset + size)`). -/
theorem c3_fragment_only_read (frag : List Nat) (k fuel : Nat) (hk : 0 < k)
    (hfuel : (frag.length + k - 1) / k + 1 ≤ fuel) :
    fileReaderDrive fuel
      (newFileReader { blockStart := 0, fragmented := true, size := frag.length }
        [] frag) k =
      (frag, some .eof) := by
  have h := fragOnly_drive frag frag.length k hk fuel 0 (by simpa using hfuel)
  simpa [newFileReader] using h

/-- C3 witness: the spec's E4 file — 10 bytes `"helloworld"` held entirely
in a fragment — reads exactly those bytes and then EOF. -/
theorem c3_fragment_only_read_witness :
    fileReaderDrive 2
      (newFileReader { blockStart := 0, fragmented := true, size := 10 }
        [] [104, 101, 108, 108, 111, 119, 111, 114, 108, 100]) 10 =
      ([104, 101, 108, 108, 111, 119, 111, 114, 108, 100], some .eof) :=
  c3_fragment_only_read [104, 101, 108, 108, 111, 119, 111, 114, 108, 100]
    10 2 (by decide) (by decide)

/-- A two-entry directory listing: one header (raw count 1, i.e. two
entries, inode table block offset 37, starting inode number 100), an
entry named `"a"` (in-block offset 3, type 2, stored name length 0) and an
entry named `"bc"` (in-block offset 20, type 1, stored name length 1). -/
def dirFixtureBytes : List Nat :=
  [1, 0, 0, 0, 37, 0, 0, 0, 100, 0, 0, 0,
   3, 0, 0, 0, 2, 0, 0, 0, 97,
   20, 0, 1, 0, 1, 0, 1, 0, 98, 99]

/-- C8: directory decoding (src/internal/directory/directory.go).  First,
`NewEntry` reads the 8-byte record and then exactly `name_length + 1` name
bytes (the on-disk field stores `length − 1`), exposes the name verbatim
with no trimming, and takes the entry's in-block offset from the record
itself.  Second, within an entry run whose header announces at most 256
entries (the format cap), every produced entry carries the
`inode_table_block_offset` of the current — most recently read — header.
Third, the fixture listing decodes to its two entries, both tagged with
header offset 37. -/
theorem c8_directory_decode :
    (∀ buf e rest, newEntry buf = .ok (e, rest) →
      e.name = (buf.drop 8).take (u16At buf 6 + 1) ∧
      e.name.length = u16At buf 6 + 1 ∧
      e.inodeBlockOffset = u16At buf 0 ∧
      e.typ = u16At buf 4 ∧
      rest = (buf.drop 8).drop (u16At buf 6 + 1)) ∧
    (∀ fuel hdr i buf acc out rest, hdr.count ≤ 256 →
      entLoop fuel hdr i buf acc = .ok (out, rest) →
      ∀ e ∈ out, e ∈ acc ∨ e.inodeOffset = hdr.inodeOffset) ∧
    newDirectory dirFixtureBytes 34 =
      .ok [{ name := [97], typ := 2, inodeBlockOffset := 3, inodeOffset := 37 },
           { name := [98, 99], typ := 1, inodeBlockOffset := 20, inodeOffset := 37 }] := by
  refine ⟨?_, ?_, rfl⟩
  · intro buf e rest h
    simp only [newEntry] at h
    split_ifs at h with h1 h2 h3 h4
    simp only [Except.ok.injEq, Prod.mk.injEq] at h
    obtain ⟨he, hr⟩ := h
    subst he
    refine ⟨rfl, ?_, rfl, rfl, hr.symm⟩
    simp only [List.length_take]
    omega
  · intro fuel
    induction fuel with
    | zero =>
      intro hdr i buf acc out rest _ h
      exact absurd h (by simp [entLoop])
    | succ n ih =>
      intro hdr i buf acc out rest hcap h
      rw [entLoop] at h
      by_cases hi : i < hdr.count
      · rw [if_pos hi] at h
        by_cases hre : i ≠ 0 ∧ i % 256 = 0
        · exfalso
          obtain ⟨hne, hmod⟩ := hre
          have h256 : 256 ≤ i := by
            rcases Nat.eq_zero_or_pos i with h0 | hpos
            · exact absurd h0 hne
            · exact Nat.le_of_dvd hpos (Nat.dvd_of_mod_eq_zero hmod)
          omega
        · rw [if_neg hre] at h
          cases hparse : newEntry buf with
          | error e' => rw [hparse] at h; simp at h
          | ok pr =>
            obtain ⟨ent, buf'⟩ := pr
            rw [hparse] at h
            intro e he
            have hrec := ih hdr (i + 1) buf'
              (acc ++ [{ ent with inodeOffset := hdr.inodeOffset }]) out rest hcap h
            rcases hrec e he with hmem | hofs
            · rcases List.mem_append.mp hmem with h' | h'
              · exact Or.inl h'
              · simp only [List.mem_singleton] at h'
                subst h'
                exact Or.inr rfl
            · exact Or.inr hofs
      · rw [if_neg hi] at h
        simp only [Except.ok.injEq, Prod.mk.injEq] at h
        obtain ⟨h1, _⟩ := h
        subst h1
        intro e he
        exact Or.inl he

/-- C8 witness: decoding the 9-byte record `[3,0,0,0,2,0,0,0,97]` yields
name `[97]` (read as `0 + 1` bytes, verbatim) with in-block offset 3, and
an entry produced under the header with inode table block offset 37
carries offset 37. -/
theorem c8_directory_decode_witness :
    (({ name := [97], typ := 2, inodeBlockOffset := 3, inodeOffset := 0 } :
        DirEntry).name =
      (([3, 0, 0, 0, 2, 0, 0, 0, 97] : List Nat).drop 8).take
        (u16At [3, 0, 0, 0, 2, 0, 0, 0, 97] 6 + 1) ∧
      ({ name := [97], typ := 2, inodeBlockOffset := 3, inodeOffset := 0 } :
        DirEntry).name.length = u16At [3, 0, 0, 0, 2, 0, 0, 0, 97] 6 + 1 ∧
      ({ name := [97], typ := 2, inodeBlockOffset := 3, inodeOffset := 0 } :
        DirEntry).inodeBlockOffset = u16At [3, 0, 0, 0, 2, 0, 0, 0, 97] 0 ∧
      ({ name := [97], typ := 2, inodeBlockOffset := 3, inodeOffset := 0 } :
        DirEntry).typ = u16At [3, 0, 0, 0, 2, 0, 0, 0, 97] 4 ∧
      ([] : List Nat) =
        (([3, 0, 0, 0, 2, 0, 0, 0, 97] : List Nat).drop 8).drop
          (u16At [3, 0, 0, 0, 2, 0, 0, 0, 97] 6 + 1)) ∧
    (({ name := [97], typ := 2, inodeBlockOffset := 3, inodeOffset := 37 } :
        DirEntry) ∈ ([] : List DirEntry) ∨
      ({ name := [97], typ := 2, inodeBlockOffset := 3, inodeOffset := 37 } :
        DirEntry).inodeOffset =
        ({ count := 1, inodeOffset := 37, inodeNumber := 100 } : DirHeader).inodeOffset) :=
  ⟨c8_directory_decode.1 [3, 0, 0, 0, 2, 0, 0, 0, 97] _ _ rfl,
   c8_directory_decode.2.1 2 { count := 1, inodeOffset := 37, inodeNumber := 100 }
     0 [3, 0, 0, 0, 2, 0, 0, 0, 97] [] _ _ (by decide) rfl _ (by decide)⟩

/-- The E6 tree: a root directory containing directory `a`, which contains
directory `b`, which contains file `c`. -/
def treeABC : FsNode := .dir [] [.dir ['a'] [.dir ['b'] [.file ['c']]]]

/-- C4 counterexample: the claim asserts each path component is compared
literally with no glob expansion; but `FileFS.Open` (src/unnamed/part_003
line 52) matches components with `path.Match`, so opening the pattern
`"*"` on a directory whose only entry is named `"x"` returns that file
even though no entry is literally named `"*"`. -/
theorem c4_counterexample :
    fsOpen 5 (.dir [] [.file ['x']]) ['*'] = some (.ok (.file ['x'])) ∧
      (['*'] : List Char) ≠ ['x'] :=
  ⟨rfl, by decide⟩

/-- C4 (amended): `FileFS.Open` returns the receiver for the empty path
and `"."`; any path with a `".."` component is rejected with
`fs.ErrInvalid`; each component is interpreted as a Go `path.Match` glob
pattern (a component without metacharacters matches exactly its literal
name), so `"a/b/c"` resolves to the file `c` inside `b` inside root-level
`a`, and `"a/../b"` is rejected as path-invalid (src/unnamed/part_003
lines 16–103). -/
theorem c4_open_semantics :
    (∀ (node : FsNode) (fuel : Nat), fsOpen (fuel + 1) node [] = some (.ok node)) ∧
    (∀ (node : FsNode) (fuel : Nat), fsOpen (fuel + 1) node ['.'] = some (.ok node)) ∧
    (∀ (node : FsNode) (fuel : Nat) (name : List Char),
      ['.', '.'] ∈ splitSlash name →
      fsOpen (fuel + 1) node name = some (.error .invalid)) ∧
    fsOpen 5 treeABC ['a', '/', 'b', '/', 'c'] = some (.ok (.file ['c'])) ∧
    fsOpen 5 treeABC ['a', '/', '.', '.', '/', 'b'] = some (.error .invalid) ∧
    goMatch ['*'] ['x'] = some true ∧
    goMatch ['x'] ['x'] = some true ∧
    goMatch ['y'] ['x'] = some false := by
  refine ⟨fun node fuel => rfl, fun node fuel => rfl, ?_, rfl, rfl, rfl, rfl, rfl⟩
  intro node fuel name hmem
  have hne : name ≠ [] := by
    rintro rfl
    simp [splitSlash] at hmem
  have hval : validPath name = false := by
    cases hb : validPath name
    · rfl
    · exfalso
      unfold validPath at hb
      rw [Bool.or_eq_true] at hb
      rcases hb with hb | hb
      · have hdot : name = ['.'] := of_decide_eq_true hb
        subst hdot
        simp [splitSlash] at hmem
      · rw [Bool.and_eq_true] at hb
        have hall := hb.2
        rw [List.all_eq_true] at hall
        have hbad := hall _ hmem
        simp at hbad
  simp [fsOpen, hne, hval]

/-- C4 witness: opening `"a/../b"` on the E6 tree is rejected with
`fs.ErrInvalid`, via the `".."` rejection of the amended theorem. -/
theorem c4_open_semantics_witness :
    fsOpen 5 treeABC ['a', '/', '.', '.', '/', 'b'] = some (.error .invalid) :=
  c4_open_semantics.2.2.1 treeABC 4 ['a', '/', '.', '.', '/', 'b'] (by decide)

/-- C9: the claim asserts `File.ReadDir` is total for every integer
argument and never panics on an inverted slice.  In the code
(src/unnamed/part_001 lines 150–178) the branch guard is inverted: for
`i < 0` it computes `beg, end = dirsRead, dirsRead + i` with `end < beg`
and evaluates `entries[beg:end]`, a runtime panic — shown here on a
one-entry directory with `i = -1` (the value the documentation promises
returns all entries); `i = 0` by contrast returns all entries
normally. -/
theorem c9_readDir_negative_panics :
    fileReadDir true [7] 0 (-1) = .panicked ∧
      fileReadDir true [7] 0 0 = .ok [7] false 0 := by
  constructor <;> decide

/-- C10: for every inode that is neither a basic nor an extended regular
file, `File.Size` (src/unnamed/part_001 lines 642–651) falls through the
type switch to the default branch and returns 0. -/
theorem c10_size_zero_for_non_files (ino : Inode)
    (h₁ : ino.typ ≠ FileType) (h₂ : ino.typ ≠ ExtFileType) :
    fileSize ino = some 0 := by
  unfold fileSize
  simp [h₁, h₂]

/-- C10 witness: a directory inode has size 0. -/
theorem c10_size_zero_for_non_files_witness :
    fileSize { typ := DirType, info := .dirInfo } = some 0 :=
  c10_size_zero_for_non_files _ (by decide) (by decide)

end Squashfs
